import Mathlib

/-!
Shallow embedding of `src/oura_discord_bot.py`, an Oura Ring 4 price-tracker
bot: the price extractor, the retailer catalog and sweep, the dictionary
configuration store with its JSON file, the operator commands and the
scheduled check loop.  Prices are modelled as rationals, a page fetch as a
function from URL to an optional page text (already stripped of markup, as
`soup.get_text()` leaves it), and the configuration file as an explicit
persisted copy of the in-memory dictionary.
-/

namespace OuraBot

/-- One price reading as built in `check_all_prices` (lines 100 to 106 of the
source).  The `timestamp` field is produced by `datetime.now()` — an external
wall clock — and is never used in any comparison by the program, so it is
omitted from the model. -/
structure Obs where
  retailer : String
  color : String
  price : ℚ
  url : String
deriving DecidableEq

/-- One entry of `OuraPriceTracker.retailers` (lines 21 to 42): `base_urls`
is `some` only for the `oura` entry, mirroring the dictionary key that only
that entry carries. -/
structure Retailer where
  key : String
  name : String
  base_url : Option String
  base_urls : Option (List (String × String))
  colors : List String
deriving DecidableEq

/-- The retailer registry from `OuraPriceTracker.__init__` (lines 21 to 42),
in dictionary insertion order. -/
def retailers : List Retailer :=
  [ { key := "amazon", name := "Amazon",
      base_url := some "https://www.amazon.com/dp/B0DJCX5KQG",
      base_urls := none,
      colors := ["silver", "black", "gold"] },
    { key := "target", name := "Target",
      base_url := some "https://www.target.com/p/oura-ring-4/-/A-93747936",
      base_urls := none,
      colors := ["black"] },
    { key := "oura", name := "Oura Official",
      base_url := none,
      base_urls := some
        [ ("silver", "https://ouraring.com/store/rings/oura-ring-4/silver"),
          ("black", "https://ouraring.com/store/rings/oura-ring-4/stealth"),
          ("gold", "https://ouraring.com/store/rings/oura-ring-4/gold"),
          ("rose_gold", "https://ouraring.com/store/rings/oura-ring-4/rose-gold") ],
      colors := ["silver", "black", "gold", "rose_gold"] } ]

/-- Numeric value of an ASCII digit character.

The match loop of `extract_price` is modelled in integer cents: every string
the two patterns can capture has the shape of three digits optionally
followed by a dot and two digits, so `float(match.group(1))` always denotes
a whole number of cents, and comparing that float against the integer bounds
200 and 600 is exactly comparing the cents against 20000 and 60000.  The
rational price `cents / 100` is rebuilt at the `extract_price` boundary. -/
def digitVal (c : Char) : ℕ := c.toNat - 48

/-- The tail `\s*USD` of the second price pattern.  The regex backtracks over
the whitespace, but since `USD` starts with a non-space character this is
equivalent to skipping all whitespace and then requiring the literal `USD`. -/
def usdSuffix (cs : List Char) : Bool :=
  List.isPrefixOf ['U', 'S', 'D'] (cs.dropWhile Char.isWhitespace)

/-- Match of the first price pattern of `extract_price` (line 62: a dollar
sign, exactly three digits, then optionally a dot and two more digits) at
the head of `cs`, returning the captured amount in cents. -/
def dollarPriceAt : List Char → Option ℕ
  | '$' :: d1 :: d2 :: d3 :: rest =>
    if d1.isDigit ∧ d2.isDigit ∧ d3.isDigit then
      let whole := digitVal d1 * 100 + digitVal d2 * 10 + digitVal d3
      match rest with
      | '.' :: f1 :: f2 :: _ =>
        if f1.isDigit ∧ f2.isDigit then some (whole * 100 + (digitVal f1 * 10 + digitVal f2))
        else some (whole * 100)
      | _ => some (whole * 100)
    else none
  | _ => none

/-- Match of the second price pattern of `extract_price` (line 63: exactly
three digits, optionally a dot and two more digits, then whitespace and the
literal `USD`) at the head of `cs`, in cents.  When the optional fraction is
present but `USD` does not follow it, the regex backtracks and retries
without the fraction, exactly as encoded here. -/
def usdPriceAt : List Char → Option ℕ
  | d1 :: d2 :: d3 :: rest =>
    if d1.isDigit ∧ d2.isDigit ∧ d3.isDigit then
      let whole := digitVal d1 * 100 + digitVal d2 * 10 + digitVal d3
      match rest with
      | '.' :: f1 :: f2 :: rest2 =>
        if f1.isDigit ∧ f2.isDigit ∧ usdSuffix rest2 then
          some (whole * 100 + (digitVal f1 * 10 + digitVal f2))
        else if usdSuffix rest then some (whole * 100)
        else none
      | _ => if usdSuffix rest then some (whole * 100) else none
    else none
  | _ => none

/-- Model of `re.search` (line 67): try the pattern at every position of the text,
left to right, and return the first match in document order. -/
def reSearch (pat : List Char → Option ℕ) : List Char → Option ℕ
  | [] => pat []
  | c :: cs =>
    match pat (c :: cs) with
    | some p => some p
    | none => reSearch pat cs

/-- The ordered pattern list of `extract_price` (lines 61 to 64). -/
def patterns : List (List Char → Option ℕ) := [dollarPriceAt, usdPriceAt]

/-- The pattern loop of `extract_price` (lines 66 to 73): take the first
match of each pattern in turn; a match inside the plausible range — 200 to
600 dollars, that is 20000 to 60000 cents — is returned at once, any other
match makes the loop move on to the next pattern; `none` once the pattern
list is exhausted. -/
def findPrice : List (List Char → Option ℕ) → List Char → Option ℕ
  | [], _ => none
  | pat :: pats, text =>
    match reSearch pat text with
    | some price => if 20000 ≤ price ∧ price ≤ 60000 then some price else findPrice pats text
    | none => findPrice pats text

/-- Embedding of `extract_price` (lines 50 to 76), returning the price in dollars as a
rational.  `fetchText` models the network fetch plus markup stripping
(`requests.get`, the status-code check and `soup.get_text`); `none` covers a
non-200 status, a timeout and any raised exception, all of which make the
original return `None`. -/
def extract_price (fetchText : String → Option String) (url : String) : Option ℚ :=
  match fetchText url with
  | some text => (findPrice patterns text.data).map (fun (cents : ℕ) => (cents : ℚ) / 100)
  | none => none

/-- URL choice of `check_all_prices` (lines 87 to 91): the `oura` entry looks
its URL up per color, every other retailer uses its single base URL. -/
def retailerUrl (r : Retailer) (color : String) : Option String :=
  if r.key = "oura" ∧ r.base_urls.isSome then (r.base_urls.getD []).lookup color
  else r.base_url

/-- One step of the target-resolution part of `check_all_prices` (lines 82
to 94): the color must be offered by the retailer and must resolve to a
truthy URL (`if not url: continue`). -/
def resolveStep (r : Retailer) (acc : List (Retailer × String × String)) (color : String) :
    List (Retailer × String × String) :=
  if color ∈ r.colors then
    match retailerUrl r color with
    | some url => if url = "" then acc else acc ++ [(r, color, url)]
    | none => acc
  else acc

/-- The target resolution performed by the nested loops of
`check_all_prices` (lines 82 to 94): retailers in registration order,
tracked colors in input order. -/
def resolveTargets (tracked : List String) : List (Retailer × String × String) :=
  retailers.foldl (fun acc r => tracked.foldl (resolveStep r) acc) []

/-- One step of the sweep loop of `check_all_prices` (lines 82 to 110): after
resolving the target, fetch and extract a price and append an observation
when the price is truthy (`if price:`). -/
def sweepStep (fetchText : String → Option String) (r : Retailer) (acc : List Obs)
    (color : String) : List Obs :=
  if color ∈ r.colors then
    match retailerUrl r color with
    | some url =>
      if url = "" then acc
      else
        match extract_price fetchText url with
        | some price =>
          if price ≠ 0 then
            acc ++ [{ retailer := r.name, color := color, price := price, url := url }]
          else acc
        | none => acc
    | none => acc
  else acc

/-- Embedding of `check_all_prices` (lines 78 to 112).  The politeness sleep between
fetches does not affect the returned list and is not modelled. -/
def check_all_prices (fetchText : String → Option String) (tracked : List String) : List Obs :=
  retailers.foldl (fun acc r => tracked.foldl (sweepStep fetchText r) acc) []

/-- The configuration dictionary of `OuraBotConfig` with the five keys the
program uses (lines 126 to 132). -/
structure ConfigData where
  target_price : ℚ
  check_interval : ℤ
  tracked_colors : List String
  tracking_enabled : Bool
  alert_channel_id : Option ℤ
deriving DecidableEq

/-- The in-memory dictionary `self.data` together with the persisted copy
held by `bot_config.json`. -/
structure ConfigState where
  data : ConfigData
  stored : ConfigData
deriving DecidableEq

/-- The defaults written by `load_config` when no config file exists (lines
126 to 133); `load_config` always leaves `data` equal to the persisted
contents. -/
def defaultConfig : ConfigData :=
  { target_price := 299, check_interval := 60,
    tracked_colors := ["silver", "black", "gold"],
    tracking_enabled := false, alert_channel_id := none }

/-- State right after `OuraBotConfig.__init__`, with defaults in memory and
on disk. -/
def initialState : ConfigState := { data := defaultConfig, stored := defaultConfig }

/-- Embedding of `OuraBotConfig.set` (lines 142 to 144): mutate `self.data`, then call
`save_config`.  `saveOk` says whether the write to the config file succeeds;
when it fails, the exception raised by `save_config` propagates to the
caller — the returned flag is `false` — after the in-memory mutation has
already happened, and the persisted copy stays what it was. -/
def OuraBotConfig.set (upd : ConfigData → ConfigData) (saveOk : Bool) (s : ConfigState) :
    ConfigState × Bool :=
  let d := upd s.data
  if saveOk then ({ data := d, stored := d }, true)
  else ({ data := d, stored := s.stored }, false)

/-- The `valid_colors` list of the `!colors` command (line 277). -/
def valid_colors : List String := ["silver", "black", "gold", "rose_gold", "stealth"]

/-- Rejection message of `!setprice` (line 216). -/
def price_range_msg : String := "❌ Please enter a valid price between $100 and $600"

/-- Rejection message of `!interval` (line 304). -/
def interval_range_msg : String :=
  "❌ Please enter a value between 10 minutes and 1440 minutes (24 hours)"

/-- Rejection message of `!colors` for unknown colors (line 282). -/
def invalid_colors_msg (invalid : List String) : String :=
  "❌ Invalid colors: " ++ String.intercalate ", " invalid ++
    "\nValid options: " ++ String.intercalate ", " valid_colors

/-- Rejection message of `!colors` for an empty selection (line 286). -/
def no_colors_msg : String :=
  "❌ Please specify at least one color\nValid options: " ++
    String.intercalate ", " valid_colors

/-- Python's `str.lower` on the ASCII identifiers this program handles. -/
def lowerStr (s : String) : String := ⟨s.data.map Char.toLower⟩

/-- The `!setprice` command (lines 212 to 227).  The second component is the
rejection message, `none` on success; the save is taken to succeed. -/
def set_price (price : ℚ) (s : ConfigState) : ConfigState × Option String :=
  if price < 100 ∨ price > 600 then (s, some price_range_msg)
  else ((OuraBotConfig.set (fun d => { d with target_price := price }) true s).1, none)

/-- The `!interval` command (lines 300 to 319).  On success the running loop
is restarted with the new cadence; only the configuration effect is modelled
here. -/
def set_interval (minutes : ℤ) (s : ConfigState) : ConfigState × Option String :=
  if minutes < 10 ∨ minutes > 1440 then (s, some interval_range_msg)
  else ((OuraBotConfig.set (fun d => { d with check_interval := minutes }) true s).1, none)

/-- The `!colors` command (lines 274 to 297): lowercase the arguments, reject
when any is unknown or when none was given, otherwise store the lowercased
list. -/
def set_colors (colors : List String) (s : ConfigState) : ConfigState × Option String :=
  let cs := colors.map lowerStr
  let invalid := cs.filter (fun c => c ∉ valid_colors)
  if invalid ≠ [] then (s, some (invalid_colors_msg invalid))
  else if cs = [] then (s, some no_colors_msg)
  else ((OuraBotConfig.set (fun d => { d with tracked_colors := cs }) true s).1, none)

/-- The `!start` command (lines 169 to 191): a notice and no mutation when
tracking is already enabled; otherwise persist the enabled flag, persist the
invoking channel as the alert channel, and start the check loop. -/
def start_tracking (channelId : ℤ) (s : ConfigState) : ConfigState :=
  if s.data.tracking_enabled then s
  else
    let s1 := (OuraBotConfig.set (fun d => { d with tracking_enabled := true }) true s).1
    (OuraBotConfig.set (fun d => { d with alert_channel_id := some channelId }) true s1).1

/-- The `!stop` command (lines 194 to 209): a notice and no mutation when
tracking is not running; otherwise persist the disabled flag (the loop
itself is left running and gates on the flag). -/
def stop_tracking (s : ConfigState) : ConfigState :=
  if s.data.tracking_enabled then
    (OuraBotConfig.set (fun d => { d with tracking_enabled := false }) true s).1
  else s

/-- The alert evaluation of `price_check_loop` (line 413):
`deals = [r for r in results if r.price <= target_price]`. -/
def evaluate (obs : List Obs) (targetPrice : ℚ) : List Obs :=
  obs.filter (fun o => o.price ≤ targetPrice)

/-- The externally visible effect of one command or one loop iteration:
what is displayed to the invoker, the resulting `tracker.price_history`, and
the alert events sent to the alert channel. -/
structure SweepOutcome where
  reply : List Obs
  history : List Obs
  alerts : List Obs
deriving DecidableEq

/-- The `!check` command `check_now` (lines 230 to 271): run
`check_all_prices` over the tracked colors and report the results to the
invoking channel.  `tracker.price_history` is left untouched and nothing is
sent to the alert channel. -/
def check_now (fetchText : String → Option String) (tracked : List String)
    (hist : List Obs) : SweepOutcome :=
  { reply := check_all_prices fetchText tracked, history := hist, alerts := [] }

/-- One iteration of `price_check_loop` (lines 394 to 436): return early when
tracking is disabled or when nothing was fetched; otherwise extend
`tracker.price_history` with the results and, when an alert channel is
configured and resolvable, send one alert per deal. -/
def price_check_loop_body (fetchText : String → Option String) (tracked : List String)
    (hist : List Obs) (targetPrice : ℚ) (enabled : Bool) (channel : Option ℤ) : SweepOutcome :=
  if enabled then
    let results := check_all_prices fetchText tracked
    if results = [] then { reply := [], history := hist, alerts := [] }
    else
      { reply := [], history := hist ++ results,
        alerts :=
          match channel with
          | some _ => evaluate results targetPrice
          | none => [] }
  else { reply := [], history := hist, alerts := [] }

/-- Scheduling of the `tasks.loop`-decorated `price_check_loop` (line 394),
started by `start_tracking` (line 180): per the documented behavior of
`discord.ext.tasks.Loop`, once `start()` is called (and `before_loop` has
finished), iteration 0 of the body runs immediately, and iteration `n + 1`
runs one interval after iteration `n`.  This gives the instant at which
iteration `n` begins. -/
def loop_iteration_time (startTime interval n : ℕ) : ℕ := startTime + n * interval

/-- Specification-side description of a single resolved target, used to
state in what order `resolveTargets` emits its output. -/
def targetFor (r : Retailer) (color : String) : Option (Retailer × String × String) :=
  if color ∈ r.colors then
    match retailerUrl r color with
    | some url => if url = "" then none else some (r, color, url)
    | none => none
  else none

/-- The configuration fields other than the enabled flag and the alert
channel, for stating frame properties. -/
def coreFields (d : ConfigData) : ℚ × ℤ × List String :=
  (d.target_price, d.check_interval, d.tracked_colors)

theorem findPrice_range (ps : List (List Char → Option ℕ)) (text : List Char) (c : ℕ)
    (h : findPrice ps text = some c) : 20000 ≤ c ∧ c ≤ 60000 := by
  induction ps with
  | nil => simp [findPrice] at h
  | cons pat pats ih =>
    simp only [findPrice] at h
    split at h
    · split at h
      · cases h
        assumption
      · exact ih h
    · exact ih h

theorem extract_price_range (f : String → Option String) (url : String) (p : ℚ)
    (h : extract_price f url = some p) : 200 ≤ p ∧ p ≤ 600 := by
  simp only [extract_price] at h
  split at h
  · rename_i text htext
    cases hfp : findPrice patterns text.data with
    | none =>
      rw [hfp] at h
      exact Option.noConfusion h
    | some c =>
      rw [hfp] at h
      simp only [Option.map_some', Option.some.injEq] at h
      subst h
      rcases findPrice_range patterns text.data c hfp with ⟨h1, h2⟩
      have hc1 : (20000 : ℚ) ≤ (c : ℚ) := by exact_mod_cast h1
      have hc2 : (c : ℚ) ≤ 60000 := by exact_mod_cast h2
      constructor
      · rw [le_div_iff₀ (by norm_num : (0 : ℚ) < 100)]
        linarith
      · rw [div_le_iff₀ (by norm_num : (0 : ℚ) < 100)]
        linarith
  · exact Option.noConfusion h

theorem foldl_mem_preserve {α β : Type} (P : β → Prop) (step : List β → α → List β)
    (hstep : ∀ acc a, (∀ o ∈ acc, P o) → ∀ o ∈ step acc a, P o) :
    ∀ (l : List α) (acc : List β), (∀ o ∈ acc, P o) → ∀ o ∈ l.foldl step acc, P o := by
  intro l
  induction l with
  | nil =>
    intro acc hacc
    simpa using hacc
  | cons a l ih =>
    intro acc hacc
    rw [List.foldl_cons]
    exact ih (step acc a) (hstep acc a hacc)

theorem sweepStep_range (f : String → Option String) (r : Retailer) (acc : List Obs)
    (color : String) (hacc : ∀ o ∈ acc, 200 ≤ o.price ∧ o.price ≤ 600) :
    ∀ o ∈ sweepStep f r acc color, 200 ≤ o.price ∧ o.price ≤ 600 := by
  intro o ho
  unfold sweepStep at ho
  split at ho
  · split at ho
    · split at ho
      · exact hacc o ho
      · split at ho
        · split at ho
          · rcases List.mem_append.mp ho with h1 | h2
            · exact hacc o h1
            · cases List.mem_singleton.mp h2
              exact extract_price_range f _ _ (by assumption)
          · exact hacc o ho
        · exact hacc o ho
    · exact hacc o ho
  · exact hacc o ho

theorem check_all_prices_range (f : String → Option String) (tracked : List String) :
    ∀ o ∈ check_all_prices f tracked, 200 ≤ o.price ∧ o.price ≤ 600 := by
  unfold check_all_prices
  refine foldl_mem_preserve _ _ ?_ retailers [] (by simp)
  intro acc r hacc
  exact foldl_mem_preserve _ _ (fun acc2 c hacc2 => sweepStep_range f r acc2 c hacc2)
    tracked acc hacc

/-- C4: the alert evaluation returns exactly the subsequence of the input
with price at or below the threshold — membership is characterised and the
input order is preserved, the output being a sublist of the input — it is a
pure function of its two arguments (so re-evaluating the same observations
with the same threshold yields the same list), and it is idempotent. -/
theorem evaluate_spec (obs : List Obs) (t : ℚ) :
    (evaluate obs t).Sublist obs ∧
    (∀ o, o ∈ evaluate obs t ↔ o ∈ obs ∧ o.price ≤ t) ∧
    evaluate (evaluate obs t) t = evaluate obs t := by
  refine ⟨List.filter_sublist obs, fun o => ?_, ?_⟩
  · simp [evaluate]
  · simp only [evaluate]
    exact List.filter_eq_self.mpr fun a ha => (List.mem_filter.mp ha).2

/-- C5 counterexample: when the save fails inside
`config.set('target_price', 250)` the in-memory value stays 250 — it is not
rolled back to the prior 299 — while the persisted copy still holds 299. -/
theorem set_save_failure_counterexample :
    (OuraBotConfig.set (fun d => { d with target_price := 250 })
        false initialState).1.data.target_price = 250 ∧
    initialState.data.target_price = 299 ∧
    (OuraBotConfig.set (fun d => { d with target_price := 250 })
        false initialState).1.stored.target_price = 299 ∧
    (250 : ℚ) ≠ 299 :=
  ⟨rfl, rfl, rfl, by norm_num⟩

/-- C5 (amended): a failed save is reported to the caller — the exception
raised by `save_config` propagates out of `set` — but the in-memory
configuration keeps the freshly written value rather than being rolled back,
so whenever the mutation changed anything the in-memory state diverges from
the persisted state. -/
theorem set_save_failure_no_rollback (s : ConfigState) (upd : ConfigData → ConfigData)
    (hchanged : upd s.data ≠ s.data) (hsync : s.stored = s.data) :
    (OuraBotConfig.set upd false s).2 = false ∧
    (OuraBotConfig.set upd false s).1.data = upd s.data ∧
    (OuraBotConfig.set upd false s).1.stored = s.stored ∧
    (OuraBotConfig.set upd false s).1.data ≠ (OuraBotConfig.set upd false s).1.stored := by
  refine ⟨rfl, rfl, rfl, ?_⟩
  show upd s.data ≠ s.stored
  rw [hsync]
  exact hchanged

theorem set_save_failure_no_rollback_witness :
    ((fun d => { d with target_price := (250 : ℚ) }) initialState.data ≠ initialState.data) ∧
    initialState.stored = initialState.data ∧
    (OuraBotConfig.set (fun d => { d with target_price := 250 }) false initialState).1.data ≠
      (OuraBotConfig.set (fun d => { d with target_price := 250 }) false initialState).1.stored := by
  have h1 : (fun d => { d with target_price := (250 : ℚ) }) initialState.data ≠
      initialState.data := by
    intro h
    have h2 := congrArg ConfigData.target_price h
    norm_num [initialState, defaultConfig] at h2
  exact ⟨h1, rfl, (set_save_failure_no_rollback initialState _ h1 rfl).2.2.2⟩

theorem resolveStep_eq (r : Retailer) (acc : List (Retailer × String × String))
    (color : String) :
    resolveStep r acc color = acc ++ (targetFor r color).toList := by
  by_cases hc : color ∈ r.colors
  · cases hu : retailerUrl r color with
    | some url => by_cases hurl : url = "" <;> simp [resolveStep, targetFor, hc, hu, hurl]
    | none => simp [resolveStep, targetFor, hc, hu]
  · simp [resolveStep, targetFor, hc]

theorem foldl_resolveStep (r : Retailer) (tracked : List String)
    (acc : List (Retailer × String × String)) :
    tracked.foldl (resolveStep r) acc = acc ++ tracked.filterMap (targetFor r) := by
  induction tracked generalizing acc with
  | nil => simp
  | cons c cs ih =>
    rw [List.foldl_cons, resolveStep_eq, ih, List.filterMap_cons]
    cases targetFor r c <;> simp

theorem foldl_targets (tracked : List String) (rs : List Retailer)
    (acc : List (Retailer × String × String)) :
    rs.foldl (fun acc r => tracked.foldl (resolveStep r) acc) acc =
      acc ++ (rs.map fun r => tracked.filterMap (targetFor r)).flatten := by
  induction rs generalizing acc with
  | nil => simp
  | cons r rs ih =>
    rw [List.foldl_cons, foldl_resolveStep, ih]
    simp

/-- C7 (amended): target resolution is a pure function of the tracked list —
the same input always yields the same output sequence — and the output is
grouped by retailer in registration order, with the targets of each retailer
following the order of the tracked input list (not the retailer's own
color-registration order). -/
theorem resolveTargets_order (tracked : List String) :
    resolveTargets tracked =
      (retailers.map fun r => tracked.filterMap (targetFor r)).flatten := by
  unfold resolveTargets
  rw [foldl_targets]
  simp

/-- C7 counterexample: with tracked input `["black", "silver"]` Amazon's two
targets come out black first although Amazon registers silver before black,
so the within-source order follows the input order, not variant-registration
order. -/
theorem resolveTargets_order_counterexample :
    (resolveTargets ["black", "silver"]).map (fun x => (x.1.key, x.2.1)) =
      [("amazon", "black"), ("amazon", "silver"), ("target", "black"),
       ("oura", "black"), ("oura", "silver")] ∧
    retailers.map Retailer.colors =
      [["silver", "black", "gold"], ["black"], ["silver", "black", "gold", "rose_gold"]] :=
  ⟨by decide, by decide⟩

/-- C10: `stealth` is accepted by the `!colors` command and stored as a
tracked color, yet no retailer lists `stealth` among its colors, so a sweep
tracking exactly `stealth` resolves zero targets and returns no
observations, whatever the fetches would have returned. -/
theorem stealth_accepted_but_unresolvable :
    ("stealth" ∈ valid_colors) ∧
    (retailers.filter (fun r => "stealth" ∈ r.colors) = []) ∧
    (∀ s : ConfigState, (set_colors ["stealth"] s).2 = none ∧
      (set_colors ["stealth"] s).1.data.tracked_colors = ["stealth"]) ∧
    (resolveTargets ["stealth"] = []) ∧
    (∀ f : String → Option String, check_all_prices f ["stealth"] = []) :=
  ⟨by decide, by decide, fun s => ⟨rfl, rfl⟩, rfl, fun f => rfl⟩

/-- The Amazon observation produced by a sweep whose every page reads
`$350`, used as a concrete witness input. -/
def obsAmazon350 : Obs :=
  { retailer := "Amazon", color := "black", price := 350,
    url := "https://www.amazon.com/dp/B0DJCX5KQG" }

theorem extract350 : ∀ u, extract_price (fun _ => some "$350") u = some 350 := by
  intro u
  have h : findPrice patterns ("$350").data = some 35000 := by decide
  simp [extract_price, h]
  norm_num

theorem sweep350_eval :
    check_all_prices (fun _ => some "$350") ["black"] =
      [{ retailer := "Amazon", color := "black", price := 350,
         url := "https://www.amazon.com/dp/B0DJCX5KQG" },
       { retailer := "Target", color := "black", price := 350,
         url := "https://www.target.com/p/oura-ring-4/-/A-93747936" },
       { retailer := "Oura Official", color := "black", price := 350,
         url := "https://ouraring.com/store/rings/oura-ring-4/stealth" }] := by
  have hl : List.lookup "black"
      [ ("silver", "https://ouraring.com/store/rings/oura-ring-4/silver"),
        ("black", "https://ouraring.com/store/rings/oura-ring-4/stealth"),
        ("gold", "https://ouraring.com/store/rings/oura-ring-4/gold"),
        ("rose_gold", "https://ouraring.com/store/rings/oura-ring-4/rose-gold") ] =
      some "https://ouraring.com/store/rings/oura-ring-4/stealth" := rfl
  norm_num [check_all_prices, sweepStep, retailerUrl, retailers, extract350, hl]
  rfl

/-- C1 counterexample: on a page whose first dollar-pattern match is 999
dollars — outside the plausible range — the extractor does not return "no
signal"; it falls through to the second pattern and returns the 250 dollars
that pattern finds. -/
theorem extract_price_fallthrough_counterexample :
    reSearch dollarPriceAt ("$999 250 USD").data = some 99900 ∧
    ¬(20000 ≤ 99900 ∧ 99900 ≤ 60000) ∧
    extract_price (fun _ => some "$999 250 USD") "https://example.com" = some 250 := by
  refine ⟨by decide, by decide, ?_⟩
  have h : findPrice patterns ("$999 250 USD").data = some 25000 := by decide
  simp [extract_price, h]
  norm_num

/-- C1 (amended): the patterns are tried in priority order and, within one
pattern, only its first match in document order is considered.  When the
first pattern's first match lies inside the plausible range it is returned;
when it lies outside the range the extractor does not try later matches of
that pattern, but it does fall through to the remaining pattern list; and
when the first pattern has no match at all the remaining patterns are tried
likewise. -/
theorem extract_price_pattern_priority (text : List Char) :
    (∀ c : ℕ, reSearch dollarPriceAt text = some c →
      ((20000 ≤ c ∧ c ≤ 60000) → findPrice patterns text = some c) ∧
      (¬(20000 ≤ c ∧ c ≤ 60000) →
        findPrice patterns text = findPrice [usdPriceAt] text)) ∧
    (reSearch dollarPriceAt text = none →
      findPrice patterns text = findPrice [usdPriceAt] text) := by
  constructor
  · intro c hc
    constructor
    · intro hr
      simp [findPrice, patterns, hc, hr]
    · intro hr
      simp [findPrice, patterns, hc, hr]
  · intro hc
    simp [findPrice, patterns, hc]

theorem extract_price_pattern_priority_witness :
    reSearch dollarPriceAt ("$999 250 USD").data = some 99900 ∧
    findPrice patterns ("$999 250 USD").data = findPrice [usdPriceAt] ("$999 250 USD").data ∧
    reSearch dollarPriceAt ("$350").data = some 35000 ∧
    findPrice patterns ("$350").data = some 35000 := by
  refine ⟨by decide, ?_, by decide, ?_⟩
  · exact ((extract_price_pattern_priority ("$999 250 USD").data).1 99900 (by decide)).2
      (by decide)
  · exact ((extract_price_pattern_priority ("$350").data).1 35000 (by decide)).1 (by decide)

/-- C2 counterexample: the check loop started by `start_tracking` runs its
first iteration at the start instant itself, strictly inside the window
between the start call and one interval (here 60 minutes) later. -/
theorem first_sweep_immediate_counterexample :
    loop_iteration_time 0 60 0 = 0 ∧ (0 : ℕ) < 60 :=
  ⟨rfl, by norm_num⟩

/-- C2 (amended): starting from the stopped state enables tracking and
starts the check loop, whose first sweep fires immediately at the start
instant — not one interval later — with consecutive sweeps spaced one full
interval apart. -/
theorem start_first_sweep_timing (s : ConfigState) (ch : ℤ) (t i : ℕ)
    (h : s.data.tracking_enabled = false) :
    (start_tracking ch s).data.tracking_enabled = true ∧
    loop_iteration_time t i 0 = t ∧
    (∀ n : ℕ, loop_iteration_time t i (n + 1) = loop_iteration_time t i n + i) := by
  refine ⟨?_, by simp [loop_iteration_time], fun n => ?_⟩
  · simp [start_tracking, h, OuraBotConfig.set]
  · simp only [loop_iteration_time, Nat.succ_mul]
    ring

theorem start_first_sweep_timing_witness :
    initialState.data.tracking_enabled = false ∧
    (start_tracking 1 initialState).data.tracking_enabled = true ∧
    loop_iteration_time 0 60 0 = 0 :=
  ⟨rfl, (start_first_sweep_timing initialState 1 0 60 rfl).1,
    (start_first_sweep_timing initialState 1 0 60 rfl).2.1⟩

/-- C3 (code bug): the `!history` reply directs the operator to use `!check`
to start building history, but `check_now` never appends to
`tracker.price_history` (its history is returned unchanged, and nothing is
sent to the alert channel), while a scheduled sweep fetching the same
results extends history with exactly those observations. -/
theorem check_now_history_divergence :
    (check_now (fun _ => some "$350") ["black"] []).reply ≠ [] ∧
    (check_now (fun _ => some "$350") ["black"] []).history = [] ∧
    (check_now (fun _ => some "$350") ["black"] []).alerts = [] ∧
    (price_check_loop_body (fun _ => some "$350") ["black"] [] 299 true (some 1)).history =
      check_all_prices (fun _ => some "$350") ["black"] ∧
    check_all_prices (fun _ => some "$350") ["black"] ≠ [] := by
  refine ⟨?_, rfl, rfl, ?_, ?_⟩
  · show check_all_prices (fun _ => some "$350") ["black"] ≠ []
    rw [sweep350_eval]
    simp
  · simp [price_check_loop_body, sweep350_eval]
  · rw [sweep350_eval]
    simp

/-- C6: every observation a sweep produces has a price inside the plausible
range — 200 to 600 dollars, inclusive on both bounds — so everything the
check loop appends to `price_history` and everything it hands to the alert
evaluation is in range; an out-of-range parse is dropped inside
`extract_price` and never becomes an observation. -/
theorem sweep_prices_in_plausible_range (f : String → Option String) (tracked : List String)
    (hist : List Obs) (t : ℚ) (e : Bool) (ch : Option ℤ) :
    (∀ o ∈ check_all_prices f tracked, 200 ≤ o.price ∧ o.price ≤ 600) ∧
    (∀ o ∈ (price_check_loop_body f tracked hist t e ch).history,
      o ∈ hist ∨ (200 ≤ o.price ∧ o.price ≤ 600)) ∧
    (∀ o ∈ (price_check_loop_body f tracked hist t e ch).alerts,
      200 ≤ o.price ∧ o.price ≤ 600) := by
  have main := check_all_prices_range f tracked
  refine ⟨main, ?_, ?_⟩
  · intro o ho
    simp only [price_check_loop_body] at ho
    split at ho
    · split at ho
      · exact Or.inl ho
      · rcases List.mem_append.mp ho with h1 | h2
        · exact Or.inl h1
        · exact Or.inr (main o h2)
    · exact Or.inl ho
  · intro o ho
    simp only [price_check_loop_body] at ho
    split at ho
    · split at ho
      · simp at ho
      · cases ch with
        | some c =>
          have ho' : o ∈ evaluate (check_all_prices f tracked) t := ho
          exact main o (List.mem_filter.mp ho').1
        | none => simp at ho
    · simp at ho

theorem sweep_prices_in_plausible_range_witness :
    obsAmazon350 ∈ check_all_prices (fun _ => some "$350") ["black"] ∧
    (200 : ℚ) ≤ obsAmazon350.price ∧ obsAmazon350.price ≤ 600 := by
  have hm : obsAmazon350 ∈ check_all_prices (fun _ => some "$350") ["black"] := by
    rw [sweep350_eval]
    exact List.mem_cons_self _ _
  exact ⟨hm,
    (sweep_prices_in_plausible_range (fun _ => some "$350") ["black"] [] 299 true none).1
      _ hm⟩

/-- C8: a threshold outside 100 to 600 dollars, an interval outside 10 to
1440 minutes, or a color list containing an identifier that is unknown after
the command's lowercasing, is rejected with its specific reason and leaves
the configuration — in memory and persisted alike — untouched. -/
theorem invalid_setter_rejected (s : ConfigState) :
    (∀ p : ℚ, p < 100 ∨ p > 600 → set_price p s = (s, some price_range_msg)) ∧
    (∀ m : ℤ, m < 10 ∨ m > 1440 → set_interval m s = (s, some interval_range_msg)) ∧
    (∀ cs : List String, (cs.map lowerStr).filter (fun c => c ∉ valid_colors) ≠ [] →
      (set_colors cs s).1 = s ∧
      (set_colors cs s).2 =
        some (invalid_colors_msg ((cs.map lowerStr).filter (fun c => c ∉ valid_colors)))) := by
  refine ⟨fun p hp => ?_, fun m hm => ?_, fun cs hcs => ?_⟩
  · unfold set_price
    rw [if_pos hp]
  · unfold set_interval
    rw [if_pos hm]
  · have h : set_colors cs s =
        (s, some (invalid_colors_msg
          ((cs.map lowerStr).filter (fun c => c ∉ valid_colors)))) := by
      simp only [set_colors]
      rw [if_pos hcs]
    exact ⟨congrArg Prod.fst h, congrArg Prod.snd h⟩

theorem invalid_setter_rejected_witness :
    ((50 : ℚ) < 100 ∨ (50 : ℚ) > 600) ∧
    set_price 50 initialState = (initialState, some price_range_msg) ∧
    ((5 : ℤ) < 10 ∨ (5 : ℤ) > 1440) ∧
    set_interval 5 initialState = (initialState, some interval_range_msg) ∧
    (["blue"].map lowerStr).filter (fun c => c ∉ valid_colors) ≠ [] ∧
    (set_colors ["blue"] initialState).1 = initialState := by
  have h1 : (50 : ℚ) < 100 ∨ (50 : ℚ) > 600 := by norm_num
  have h2 : (5 : ℤ) < 10 ∨ (5 : ℤ) > 1440 := by norm_num
  have h3 : (["blue"].map lowerStr).filter (fun c => c ∉ valid_colors) ≠ [] := by decide
  exact ⟨h1, (invalid_setter_rejected initialState).1 50 h1, h2,
    (invalid_setter_rejected initialState).2.1 5 h2, h3,
    ((invalid_setter_rejected initialState).2.2 ["blue"] h3).1⟩

/-- C9: `stop_tracking` writes only the enabled flag and `start_tracking`
writes only the enabled flag and the alert channel, so stopping and then
starting leaves target price, interval and tracked colors — in memory and
persisted — exactly as they were before the stop. -/
theorem stop_start_frame (s : ConfigState) (ch : ℤ) (hsync : s.stored = s.data) :
    coreFields (stop_tracking s).data = coreFields s.data ∧
    (stop_tracking s).data.alert_channel_id = s.data.alert_channel_id ∧
    coreFields (start_tracking ch s).data = coreFields s.data ∧
    coreFields (start_tracking ch (stop_tracking s)).data = coreFields s.data ∧
    coreFields (start_tracking ch (stop_tracking s)).stored = coreFields s.stored := by
  by_cases he : s.data.tracking_enabled <;>
    simp [stop_tracking, start_tracking, OuraBotConfig.set, coreFields, he, hsync]

theorem stop_start_frame_witness :
    initialState.stored = initialState.data ∧
    coreFields (start_tracking 42 (stop_tracking initialState)).data =
      coreFields initialState.data ∧
    coreFields (start_tracking 42 (stop_tracking initialState)).stored =
      coreFields initialState.stored :=
  ⟨rfl, (stop_start_frame initialState 42 rfl).2.2.2.1,
    (stop_start_frame initialState 42 rfl).2.2.2.2⟩

end OuraBot
